import Mathlib

/-!
Verification of the asynchronous log ingestion and query pipeline of the
sentiment-agent service (`app/core/db_logging.py`, `app/core/utils.py`,
`app/service/logging_router.py`, `app/service/service.py`).

The development shallowly embeds the pipeline:
* the `extra` column's stored text is modelled as a parsed Python expression
  (`PyExpr`) or unparseable garbage (`StoredText.garbage`); Python's `eval`
  is modelled by `pyEvalExpr`, which also evaluates non-literal expressions
  (computations), while the safe reader `ast_literal_eval` is modelled from
  the spec and rejects them;
* the SQLite table is a list of rows carrying their `rowid`; the query
  `ORDER BY timestamp DESC` with the schema's `idx_timestamp` index is
  modelled as SQLite's reverse index scan, i.e. sorting by descending
  `(timestamp, rowid)`; TEXT comparison is byte order (`strLt`);
* Python exceptions are the inductive `PyExc`; endpoint handlers return
  `Except PyExc`, and `CoreUtils.aexception_handling` models the
  `aexception_handling_decorator`.
-/

namespace SentimentAgent

/-! ## Python values and expressions stored in the `extra` column -/

mutual
/-- Python values of the restricted union persisted in `extra`: strings,
integers, booleans, `None`, dicts and lists. -/
inductive PyVal : Type where
  | vstr : String → PyVal
  | vint : Int → PyVal
  | vbool : Bool → PyVal
  | vnone : PyVal
  | vdict : PyFields → PyVal
  | vlist : PyVals → PyVal
  deriving DecidableEq
/-- Entries of a Python dict with string keys. -/
inductive PyFields : Type where
  | nil : PyFields
  | cons : String → PyVal → PyFields → PyFields
  deriving DecidableEq
/-- Elements of a Python list. -/
inductive PyVals : Type where
  | nil : PyVals
  | cons : PyVal → PyVals → PyVals
  deriving DecidableEq
end

mutual
/-- Parsed Python expressions, the possible contents of the `extra` TEXT
column: literal structure plus computation forms (`a + b`, `f(...)`), which
a general-purpose evaluator executes. -/
inductive PyExpr : Type where
  | estr : String → PyExpr
  | eint : Int → PyExpr
  | ebool : Bool → PyExpr
  | enone : PyExpr
  | edict : PyExprFields → PyExpr
  | elist : PyExprs → PyExpr
  | eadd : PyExpr → PyExpr → PyExpr
  | ecall : String → PyExprs → PyExpr
  deriving DecidableEq
/-- Entries of a dict display expression. -/
inductive PyExprFields : Type where
  | nil : PyExprFields
  | cons : String → PyExpr → PyExprFields → PyExprFields
  deriving DecidableEq
/-- Elements of a list display expression. -/
inductive PyExprs : Type where
  | nil : PyExprs
  | cons : PyExpr → PyExprs → PyExprs
  deriving DecidableEq
end

mutual
/-- Python `eval` on a parsed expression (db_logging.py line 197 applies it
to the stored `extra` text): literals evaluate to themselves, and
computation forms are executed (`eadd` performs integer addition; a call of
an unknown name raises, giving `none`). -/
def pyEvalExpr : PyExpr → Option PyVal
  | .estr s => some (.vstr s)
  | .eint n => some (.vint n)
  | .ebool b => some (.vbool b)
  | .enone => some .vnone
  | .edict fs => (pyEvalFields fs).map .vdict
  | .elist es => (pyEvalList es).map .vlist
  | .eadd a b =>
    match pyEvalExpr a, pyEvalExpr b with
    | some (.vint m), some (.vint n) => some (.vint (m + n))
    | _, _ => none
  | .ecall _ _ => none
def pyEvalFields : PyExprFields → Option PyFields
  | .nil => some .nil
  | .cons k e rest =>
    match pyEvalExpr e, pyEvalFields rest with
    | some v, some r => some (.cons k v r)
    | _, _ => none
def pyEvalList : PyExprs → Option PyVals
  | .nil => some .nil
  | .cons e rest =>
    match pyEvalExpr e, pyEvalList rest with
    | some v, some r => some (.cons v r)
    | _, _ => none
end

mutual
/-- Modelled from the spec: the safe structured-data reader
(`ast.literal_eval`) that §7's data-safety note requires on read-back. It
reconstitutes literal structure only and refuses computation forms, so no
stored text is ever executed. -/
def ast_literal_eval : PyExpr → Option PyVal
  | .estr s => some (.vstr s)
  | .eint n => some (.vint n)
  | .ebool b => some (.vbool b)
  | .enone => some .vnone
  | .edict fs => (ast_literal_eval_fields fs).map .vdict
  | .elist es => (ast_literal_eval_list es).map .vlist
  | .eadd _ _ => none
  | .ecall _ _ => none
def ast_literal_eval_fields : PyExprFields → Option PyFields
  | .nil => some .nil
  | .cons k e rest =>
    match ast_literal_eval e, ast_literal_eval_fields rest with
    | some v, some r => some (.cons k v r)
    | _, _ => none
def ast_literal_eval_list : PyExprs → Option PyVals
  | .nil => some .nil
  | .cons e rest =>
    match ast_literal_eval e, ast_literal_eval_list rest with
    | some v, some r => some (.cons v r)
    | _, _ => none
end

mutual
/-- Python `str`/`repr` of a value of the restricted union, as the parsed
expression it prints to; `str(dict)` prints the dict display, which `eval`
parses back (db_logging.py line 123 stores `str(log_record.extra)`). -/
def pyRepr : PyVal → PyExpr
  | .vstr s => .estr s
  | .vint n => .eint n
  | .vbool b => .ebool b
  | .vnone => .enone
  | .vdict fs => .edict (pyReprFields fs)
  | .vlist vs => .elist (pyReprList vs)
def pyReprFields : PyFields → PyExprFields
  | .nil => .nil
  | .cons k v rest => .cons k (pyRepr v) (pyReprFields rest)
def pyReprList : PyVals → PyExprs
  | .nil => .nil
  | .cons v rest => .cons (pyRepr v) (pyReprList rest)
end

mutual
theorem pyEvalExpr_pyRepr : ∀ v : PyVal, pyEvalExpr (pyRepr v) = some v
  | .vstr _ => rfl
  | .vint _ => rfl
  | .vbool _ => rfl
  | .vnone => rfl
  | .vdict fs => by simp [pyRepr, pyEvalExpr, pyEvalFields_pyReprFields fs]
  | .vlist vs => by simp [pyRepr, pyEvalExpr, pyEvalList_pyReprList vs]
theorem pyEvalFields_pyReprFields : ∀ fs : PyFields, pyEvalFields (pyReprFields fs) = some fs
  | .nil => rfl
  | .cons k v rest => by
    simp [pyReprFields, pyEvalFields, pyEvalExpr_pyRepr v, pyEvalFields_pyReprFields rest]
theorem pyEvalList_pyReprList : ∀ vs : PyVals, pyEvalList (pyReprList vs) = some vs
  | .nil => rfl
  | .cons v rest => by
    simp [pyReprList, pyEvalList, pyEvalExpr_pyRepr v, pyEvalList_pyReprList rest]
end

/-- Python truthiness of a value (`if log_record.extra:`): `None` is handled
separately; empty dicts, lists and strings, zero and `False` are falsy. -/
def pyTruthy : PyVal → Bool
  | .vstr s => !(s = "")
  | .vint n => !(n = 0)
  | .vbool b => b
  | .vnone => false
  | .vdict .nil => false
  | .vdict (.cons _ _ _) => true
  | .vlist .nil => false
  | .vlist (.cons _ _) => true

/-- Content of the `extra` TEXT column: the text of a Python expression, or
text that is not a valid Python expression (on which `eval` raises a
`SyntaxError`). -/
inductive StoredText : Type where
  | expr : PyExpr → StoredText
  | garbage : String → StoredText
  deriving DecidableEq

/-! ## SQLite TEXT comparison

SQLite compares TEXT under the default BINARY collation: byte order of the
UTF-8 encoding, which on code points coincides with code-point order. -/

/-- Lexicographic code-point comparison of character lists. -/
def charListLt : List Char → List Char → Bool
  | [], [] => false
  | [], _ :: _ => true
  | _ :: _, [] => false
  | a :: as, b :: bs =>
    if a < b then true
    else if b < a then false
    else charListLt as bs

/-- SQLite TEXT `<` (BINARY collation). -/
def strLt (a b : String) : Bool := charListLt a.data b.data

/-- SQLite TEXT `<=` (BINARY collation). -/
def strLe (a b : String) : Bool := !(strLt b a)

theorem charListLt_irrefl : ∀ l : List Char, charListLt l l = false
  | [] => rfl
  | a :: as => by simp [charListLt, charListLt_irrefl as]

theorem charListLt_trans : ∀ {a b c : List Char},
    charListLt a b = true → charListLt b c = true → charListLt a c = true
  | [], [], _, h1, _ => by simp [charListLt] at h1
  | [], _ :: _, [], _, h2 => by simp [charListLt] at h2
  | [], _ :: _, _ :: _, _, _ => rfl
  | _ :: _, [], _, h1, _ => by simp [charListLt] at h1
  | _ :: _, _ :: _, [], _, h2 => by simp [charListLt] at h2
  | x :: xs, y :: ys, z :: zs, h1, h2 => by
    simp only [charListLt] at h1 h2 ⊢
    rcases lt_trichotomy x y with hxy | hxy | hxy
    · rcases lt_trichotomy y z with hyz | hyz | hyz
      · simp [lt_trans hxy hyz]
      · subst hyz; simp [hxy]
      · simp [hyz, not_lt_of_lt hyz] at h2
    · subst hxy
      simp only [lt_irrefl, if_false] at h1
      rcases lt_trichotomy x z with hxz | hxz | hxz
      · simp [hxz]
      · subst hxz
        simp only [lt_irrefl, if_false] at h2 ⊢
        exact charListLt_trans h1 h2
      · simp [hxz, not_lt_of_lt hxz] at h2
    · simp [hxy, not_lt_of_lt hxy] at h1

theorem charListLt_eq_of_not_lt : ∀ {a b : List Char},
    charListLt a b = false → charListLt b a = false → a = b
  | [], [], _, _ => rfl
  | [], _ :: _, h1, _ => by simp [charListLt] at h1
  | _ :: _, [], _, h2 => by simp [charListLt] at h2
  | x :: xs, y :: ys, h1, h2 => by
    simp only [charListLt] at h1 h2
    rcases lt_trichotomy x y with hxy | hxy | hxy
    · simp [hxy] at h1
    · subst hxy
      simp only [lt_irrefl, if_false] at h1 h2
      rw [charListLt_eq_of_not_lt h1 h2]
    · simp [hxy] at h2

theorem strLt_irrefl (a : String) : strLt a a = false :=
  charListLt_irrefl a.data

theorem strLt_trans {a b c : String} (h1 : strLt a b = true) (h2 : strLt b c = true) :
    strLt a c = true :=
  charListLt_trans h1 h2

theorem strLt_eq_of_not_lt {a b : String} (h1 : strLt a b = false) (h2 : strLt b a = false) :
    a = b := by
  cases a with
  | mk da => cases b with
    | mk db =>
      have : da = db := charListLt_eq_of_not_lt h1 h2
      rw [this]

theorem strLt_asymm {a b : String} (h : strLt a b = true) : strLt b a = false := by
  by_contra hc
  have hba : strLt b a = true := by
    cases hv : strLt b a
    · exact absurd hv hc
    · rfl
  have := strLt_trans h hba
  rw [strLt_irrefl] at this
  exact Bool.noConfusion this

/-! ## Data model -/

/-- One row of the `logs` table created by `_initialize_db` (db_logging.py
lines 68-80): `id INTEGER PRIMARY KEY AUTOINCREMENT` plus the eight record
columns, with `extra` a nullable TEXT column. -/
structure Row where
  rowid : Nat
  timestamp : String
  level : String
  logger_name : String
  message : String
  exc_info : Option String := none
  thread_name : Option String := none
  process_name : Option String := none
  extra : Option StoredText := none
  deriving DecidableEq

/-- The `LogRecord` dataclass (db_logging.py lines 14-23). The `extra`
field is annotated `Optional[Dict]`, but Python does not enforce the
annotation and `eval` on read-back can produce any value, so the field is
modelled as an optional `PyVal`. -/
structure LogRecord where
  timestamp : String
  level : String
  logger_name : String
  message : String
  exc_info : Option String := none
  thread_name : Option String := none
  process_name : Option String := none
  extra : Option PyVal := none
  deriving DecidableEq

/-- Python exceptions raised by the embedded code. -/
inductive PyExc : Type where
  | httpException : Nat → String → PyExc
  | jsonResponseException : Nat → String → PyExc
  | typeError : String → PyExc
  | valueError : String → PyExc
  | syntaxError : String → PyExc
  deriving DecidableEq

/-! ## Sink write path (`AsyncDBLogHandler._db_handler`, lines 89-131) -/

/-- Serialization of the `extra` field on write (line 123):
`str(log_record.extra) if log_record.extra else None`; a `None` or falsy
(empty) value is stored as NULL, anything else as its `str` text. -/
def serializeExtra : Option PyVal → Option StoredText
  | none => none
  | some v => if pyTruthy v then some (.expr (pyRepr v)) else none

/-- The INSERT of lines 112-124: the eight column values of a record, with
`extra` serialized; SQLite assigns the autoincrement `rowid`. -/
def rowOfRecord (rowid : Nat) (lr : LogRecord) : Row :=
  { rowid := rowid
    timestamp := lr.timestamp
    level := lr.level
    logger_name := lr.logger_name
    message := lr.message
    exc_info := lr.exc_info
    thread_name := lr.thread_name
    process_name := lr.process_name
    extra := serializeExtra lr.extra }

/-- The column tuple a row carries apart from its insertion identity. -/
def rowColumns (r : Row) :
    String × String × String × String × Option String × Option String ×
      Option String × Option StoredText :=
  (r.timestamp, r.level, r.logger_name, r.message, r.exc_info, r.thread_name,
    r.process_name, r.extra)

/-- The column tuple the write path persists for a record. -/
def recordColumns (lr : LogRecord) :
    String × String × String × String × Option String × Option String ×
      Option String × Option StoredText :=
  (lr.timestamp, lr.level, lr.logger_name, lr.message, lr.exc_info,
    lr.thread_name, lr.process_name, serializeExtra lr.extra)

/-- Fallback message the drain worker prints to stderr when a database
write fails (line 131). -/
def dbErrorMessage : String := "Error writing to log database"

/-- The drain loop: `QueueListener` hands each dequeued record to
`_db_handler`, whose whole body sits in `try ... except Exception` (lines
91-131), so a failed write prints `dbErrorMessage` to stderr and the loop
continues with the next record. `fails i` is the storage-fault oracle for
the i-th write attempt; a successful write appends a row with the next
autoincrement identity. Returns the final table and the stderr lines. -/
def drainWorker (fails : Nat → Bool) :
    Nat → List Row → List String → List LogRecord → List Row × List String
  | _, db, errs, [] => (db, errs)
  | i, db, errs, lr :: rest =>
    if fails i then
      drainWorker fails (i + 1) db (errs ++ [dbErrorMessage]) rest
    else
      drainWorker fails (i + 1) (db ++ [rowOfRecord (db.length + 1) lr]) errs rest

/-! ## Query engine model

`AsyncDBLogger.get_logs` issues `SELECT ... WHERE 1=1 [AND ...] ORDER BY
timestamp DESC LIMIT ?` (lines 162-184). `_initialize_db` created
`idx_timestamp` (line 83); SQLite satisfies the `ORDER BY` by scanning that
index backwards, which yields descending `(timestamp, rowid)`: the engine
order below. -/

/-- Engine output order of `ORDER BY timestamp DESC` over the indexed
table: `a` is emitted no later than `b`. -/
def engineLe (a b : Row) : Prop :=
  (strLt b.timestamp a.timestamp || (a.timestamp == b.timestamp && decide (b.rowid ≤ a.rowid))) = true

instance : DecidableRel engineLe :=
  fun _ _ => inferInstanceAs (Decidable (_ = true))

instance : IsTrans Row engineLe where
  trans a b c h1 h2 := by
    simp only [engineLe, Bool.or_eq_true, Bool.and_eq_true, beq_iff_eq,
      decide_eq_true_eq] at h1 h2 ⊢
    rcases h1 with h1 | ⟨h1e, h1r⟩
    · rcases h2 with h2 | ⟨h2e, h2r⟩
      · exact Or.inl (strLt_trans h2 h1)
      · rw [h2e] at h1; exact Or.inl h1
    · rcases h2 with h2 | ⟨h2e, h2r⟩
      · rw [h1e]; exact Or.inl h2
      · exact Or.inr ⟨h1e.trans h2e, Nat.le_trans h2r h1r⟩

instance : IsTotal Row engineLe where
  total a b := by
    simp only [engineLe, Bool.or_eq_true, Bool.and_eq_true, beq_iff_eq,
      decide_eq_true_eq]
    cases hab : strLt b.timestamp a.timestamp
    · cases hba : strLt a.timestamp b.timestamp
      · have he : a.timestamp = b.timestamp := strLt_eq_of_not_lt hba hab
        rcases Nat.le_total b.rowid a.rowid with hr | hr
        · exact Or.inl (Or.inr ⟨he, hr⟩)
        · exact Or.inr (Or.inr ⟨he.symm, hr⟩)
      · exact Or.inr (Or.inl rfl)
    · exact Or.inl (Or.inl rfl)

/-! ## Query facade (`AsyncDBLogger`, db_logging.py lines 143-218) -/

namespace AsyncDBLogger

/-- One optional filter of `get_logs` (lines 165-179): each `if level:` /
`if start_time:` / `if end_time:` / `if logger_name:` adds its clause only
when the Python string is truthy, so `None` and the empty string add no
clause. -/
def optClause (f : Option String) (p : String → Bool) : Bool :=
  match f with
  | none => true
  | some s => if s = "" then true else p s

/-- The WHERE clause of `get_logs`: `1=1` AND the clauses actually added. -/
def rowMatches (level start_time end_time logger_name : Option String) (r : Row) : Bool :=
  optClause level (fun s => r.level == s) &&
  optClause start_time (fun s => strLe s r.timestamp) &&
  optClause end_time (fun s => strLe r.timestamp s) &&
  optClause logger_name (fun s => r.logger_name == s)

/-- `LIMIT ?` with a Python int parameter: SQLite treats a negative LIMIT
as no limit. -/
def applyLimit (limit : Int) (l : List Row) : List Row :=
  if limit < 0 then l else l.take limit.toNat

/-- Rows produced by the SELECT of `get_logs` (lines 162-185): WHERE
filtering, `ORDER BY timestamp DESC` through the timestamp index, then
LIMIT. -/
def sqlRows (db : List Row) (level start_time end_time logger_name : Option String)
    (limit : Int) : List Row :=
  applyLimit limit
    (List.insertionSort engineLe
      (db.filter (rowMatches level start_time end_time logger_name)))

/-- Reconstitution of the `extra` column (line 197):
`eval(row[7]) if row[7] else None`. A NULL or empty text gives `None`;
otherwise the stored text is passed to `eval`, which executes it and raises
on invalid input. -/
def readExtra : Option StoredText → Except PyExc (Option PyVal)
  | none => .ok none
  | some (.garbage s) =>
    if s = "" then .ok none else .error (.syntaxError s)
  | some (.expr e) =>
    match pyEvalExpr e with
    | some v => .ok (some v)
    | none => .error (.valueError "eval of stored extra raised")

/-- One iteration of the result loop (lines 188-198): rebuild a
`LogRecord` from a fetched row; an exception from `eval` propagates. -/
def recordOfRow (r : Row) : Except PyExc LogRecord :=
  match readExtra r.extra with
  | .error e => .error e
  | .ok e =>
    .ok { timestamp := r.timestamp
          level := r.level
          logger_name := r.logger_name
          message := r.message
          exc_info := r.exc_info
          thread_name := r.thread_name
          process_name := r.process_name
          extra := e }

/-- The result loop over the fetched rows: the first raised exception
aborts the whole query. -/
def recordsOfRows : List Row → Except PyExc (List LogRecord)
  | [] => .ok []
  | r :: rest =>
    match recordOfRow r with
    | .error e => .error e
    | .ok lr =>
      match recordsOfRows rest with
      | .error e => .error e
      | .ok rest2 => .ok (lr :: rest2)

/-- `AsyncDBLogger.get_logs` (lines 152-201): query with optional filters,
defaulting `limit` to 100 at the call sites that omit it, then rebuild the
records. -/
def get_logs (db : List Row) (level start_time end_time logger_name : Option String)
    (limit : Int) : Except PyExc (List LogRecord) :=
  recordsOfRows (sqlRows db level start_time end_time logger_name limit)

/-- `AsyncDBLogger.clear_old_logs` (lines 203-218) with the computed cutoff
string `(datetime.now() - timedelta(days=days)).isoformat()` taken as a
parameter: `DELETE FROM logs WHERE timestamp < ?`, returning
`cursor.rowcount`, the number of rows deleted. Result: the remaining table
and the returned count. -/
def clear_old_logs (db : List Row) (cutoff : String) : List Row × Nat :=
  (db.filter (fun r => !(strLt r.timestamp cutoff)),
    (db.filter (fun r => strLt r.timestamp cutoff)).length)

end AsyncDBLogger

/-! ## HTTP layer (`logging_router.py`, `utils.py`, `service.py`) -/

namespace CoreUtils

/-- `CoreUtils.aexception_handling_decorator` (utils.py lines 127-145): any
exception escaping the handler is caught; a `JSONResponseException` is
re-raised as is (`type(e) is JSONResponseException`), every other
exception — `HTTPException` included — is replaced by
`JSONResponseException(500, ...)`. -/
def aexception_handling {α : Type} (result : Except PyExc α) : Except PyExc α :=
  match result with
  | .ok a => .ok a
  | .error (.jsonResponseException c m) => .error (.jsonResponseException c m)
  | .error _ => .error (.jsonResponseException 500 "An unexpected error has occured.")

end CoreUtils

/-- HTTP status of a finished handler under the app of `service.py`: an
`HTTPException` is rendered with its own status code by FastAPI; the app
registers no handler for `JSONResponseException` or any other exception,
so those surface as a 500 response. -/
def responseStatus {α : Type} : Except PyExc α → Nat
  | .ok _ => 200
  | .error (.httpException c _) => c
  | .error _ => 500

/-- CPython's `logging` severity-name table (`logging._nameToLevel`), which
`Logger.setLevel` consults for string levels;  an unknown name raises
`ValueError`. -/
def levelNumber : String → Option Nat
  | "CRITICAL" => some 50
  | "FATAL" => some 50
  | "ERROR" => some 40
  | "WARN" => some 30
  | "WARNING" => some 30
  | "INFO" => some 20
  | "DEBUG" => some 10
  | "NOTSET" => some 0
  | _ => none

/-- Python `str.upper()` restricted to the character mapping (router line
51 uppercases the submitted level name). -/
def pyUpper (s : String) : String := ⟨s.data.map Char.toUpper⟩

/-- `logging.getLogger().setLevel(level)` with a string argument: returns
the new root threshold or raises `ValueError` for an unknown name. -/
def setLevel (level : String) : Except PyExc Nat :=
  match levelNumber level with
  | some n => .ok n
  | none => .error (.valueError ("Unknown level: " ++ level))

namespace logging_router

/-- `verify_bearer` (logging_router.py lines 28-38): with no configured
secret, return; otherwise 401 unless the bearer credentials equal the
secret. A pydantic `SecretStr` is falsy exactly when the wrapped string is
empty. -/
def verify_bearer (auth_secret : Option String) (credentials : Option String) :
    Except PyExc Unit :=
  match auth_secret with
  | none => .ok ()
  | some s =>
    if s = "" then .ok ()
    else
      match credentials with
      | some c => if c = s then .ok () else .error (.httpException 401 "Unauthorized")
      | none => .error (.httpException 401 "Unauthorized")

/-- The dependency list attached to the `/logging` routes: the router is
declared `APIRouter(prefix="/logging")` with no `dependencies` argument, no
route declares `Depends(verify_bearer)`, and `service.py` line 70 includes
the router plainly, so the list is empty and `verify_bearer` is never
invoked. -/
def route_dependencies : List (Option String → Option String → Except PyExc Unit) := []

/-- FastAPI request dispatch for a `/logging` route: run the registered
dependencies in order, answering with the first exception, then run the
handler. -/
def dispatch {α : Type} (auth_secret credentials : Option String)
    (handler : Except PyExc α) : Except PyExc α :=
  match route_dependencies.foldl
      (fun acc dep => acc >>= fun _ => dep auth_secret credentials)
      (.ok ()) with
  | .ok _ => handler
  | .error e => .error e

/-- `GET /logging/level` handler (lines 40-44): returns the effective root
level, wrapped by the exception decorator. -/
def get_log_level (root_level : Nat) : Except PyExc Nat :=
  CoreUtils.aexception_handling (.ok root_level)

/-- `PUT /logging/level` handler body (lines 48-56): uppercase the
submitted name, set the root level, and turn a `ValueError` into
`HTTPException(400)`; any other exception propagates. Returns the new root
level together with the response message. -/
def update_log_level_body (body_level : String) : Except PyExc (Nat × String) :=
  let level := pyUpper body_level
  match setLevel level with
  | .ok n => .ok (n, "Log level updated to " ++ level)
  | .error (.valueError m) => .error (.httpException 400 ("Invalid log level: " ++ m))
  | .error e => .error e

/-- The registered `PUT /logging/level` endpoint: the handler body under
`aexception_handling_decorator`. -/
def update_log_level (body_level : String) : Except PyExc (Nat × String) :=
  CoreUtils.aexception_handling (update_log_level_body body_level)

/-- A Python value at an `await` site: only a coroutine (the result of
calling an `async def`) is awaitable; awaiting the return value of a plain
`def` raises `TypeError`. -/
inductive Awaited (α : Type) : Type where
  | coroutine : α → Awaited α
  | plainValue : α → Awaited α

/-- Python `await`. -/
def pyAwait {α : Type} : Awaited α → Except PyExc α
  | .coroutine a => .ok a
  | .plainValue _ => .error (.typeError "object can not be used in await expression")

/-- `GET /logging/entries` handler (lines 60-72): calls
`await db_logger.get_logs(...)`; `AsyncDBLogger.get_logs` is a plain `def`,
so the call produces a plain list, not a coroutine, and the `await` is
applied to that plain value. Wrapped by the exception decorator. -/
def get_logs_endpoint (db : List Row)
    (level start_time end_time logger_name : Option String) (limit : Int) :
    Except PyExc (List LogRecord) :=
  CoreUtils.aexception_handling
    (match AsyncDBLogger.get_logs db level start_time end_time logger_name limit with
     | .error e => .error e
     | .ok logs => pyAwait (.plainValue logs))

end logging_router

/-! ## Concrete database states used by the closed theorems -/

/-- A well-formed row with no stored `extra`. -/
def rowPlain : Row :=
  { rowid := 1, timestamp := "2024-01-01T00:00:00", level := "INFO",
    logger_name := "app", message := "started" }

/-- A row whose stored `extra` text is the Python expression `1+1`: valid
input for `eval`, rejected by `ast.literal_eval`. -/
def rowComputedExtra : Row :=
  { rowid := 2, timestamp := "2024-01-01T00:00:01", level := "INFO",
    logger_name := "app", message := "with extra",
    extra := some (.expr (.eadd (.eint 1) (.eint 1))) }

/-- A row whose stored `extra` text is not a valid Python expression. -/
def rowGarbageExtra : Row :=
  { rowid := 3, timestamp := "2024-01-01T00:00:02", level := "ERROR",
    logger_name := "app", message := "bad extra",
    extra := some (.garbage "this is not a python expression") }

/-! ## Claims -/

/-- C1: the claim states that `AsyncDBLogger.get_logs` reconstitutes the
stored `extra` text with a safe structured-data reader and never executes
it. The code instead passes the stored text to `eval` (db_logging.py line
197): on a row whose `extra` column holds the expression `1+1`, read-back
executes it and returns the integer `2`, while the safe reader the spec
requires (`ast_literal_eval`) refuses that text. The spec's data-safety
note is the stated intent, so this is a code bug. -/
theorem get_logs_executes_stored_extra_text :
    AsyncDBLogger.get_logs [rowComputedExtra] none none none none 100 =
      .ok [{ timestamp := "2024-01-01T00:00:01", level := "INFO",
             logger_name := "app", message := "with extra",
             extra := some (.vint 2) }] ∧
    ast_literal_eval (.eadd (.eint 1) (.eint 1)) = none :=
  ⟨rfl, rfl⟩

/-- C10: a single stored `extra` value that is not a valid Python
expression makes the whole `get_logs` query raise (the `eval` at line 197
propagates out of the result loop), instead of skipping the bad row or
returning the others: on a two-row table whose second-by-identity row has
garbage `extra`, the query returns an error, not a one-row result. -/
theorem get_logs_malformed_extra_aborts_query :
    AsyncDBLogger.get_logs [rowPlain, rowGarbageExtra] none none none none 100 =
      .error (.syntaxError "this is not a python expression") :=
  rfl

/-- C2: the claim states that `/logging` requests are rejected with 401
when a shared secret is configured and no matching bearer token is sent.
The code defines `verify_bearer` with exactly that behaviour, but never
attaches it to the router or any route (`APIRouter(prefix="/logging")` has
no dependencies and `service.py` line 70 includes the router plainly), so
a credential-less request is served normally: with a configured secret,
`GET /logging/level` answers 200 even though `verify_bearer` itself would
have raised 401. -/
theorem logging_routes_not_bearer_gated :
    responseStatus (logging_router.dispatch (some "topsecret") none
        (logging_router.get_log_level 20)) = 200 ∧
    logging_router.verify_bearer (some "topsecret") none =
      .error (.httpException 401 "Unauthorized") :=
  ⟨rfl, rfl⟩

/-- C4: the claim states that an invalid severity name yields a 400
response. The handler body does raise `HTTPException(400, ...)` for an
unknown name, but `aexception_handling_decorator` catches it and re-raises
`JSONResponseException(500, ...)` because the caught exception is not a
`JSONResponseException`, so the client receives 500, not 400. A valid name
does set the process-wide threshold (here WARNING = 30). -/
theorem update_log_level_invalid_name_gives_500 :
    responseStatus (logging_router.update_log_level "NOTALEVEL") = 500 ∧
    logging_router.update_log_level_body "NOTALEVEL" =
      .error (.httpException 400 "Invalid log level: Unknown level: NOTALEVEL") ∧
    logging_router.update_log_level "warning" =
      .ok (30, "Log level updated to WARNING") :=
  ⟨rfl, rfl, rfl⟩

/-- C3: the claim states that every valid `GET /logging/entries` request
succeeds with the ordered entry list. The handler executes
`await db_logger.get_logs(...)` (logging_router.py line 70), but
`AsyncDBLogger.get_logs` is a plain `def`, so the `await` is applied to a
plain list and raises `TypeError`, which the exception decorator turns
into a 500 response: every request to the endpoint fails, whatever the
database state and parameters. -/
theorem get_logs_endpoint_always_500 (db : List Row)
    (level start_time end_time logger_name : Option String) (limit : Int) :
    responseStatus
      (logging_router.get_logs_endpoint db level start_time end_time logger_name limit)
      = 500 := by
  unfold logging_router.get_logs_endpoint
  cases AsyncDBLogger.get_logs db level start_time end_time logger_name limit with
  | ok logs => rfl
  | error e =>
    cases e <;> rfl

/-- C7: `clear_old_logs` deletes exactly the rows whose timestamp is
strictly below the cutoff: every kept row comes from the table and is not
below the cutoff, every row not below the cutoff is kept, the returned
count is exactly the number of rows removed, and a second purge with the
same cutoff deletes 0 rows. -/
theorem clear_old_logs_purges_exactly (db : List Row) (cutoff : String) :
    (∀ r ∈ (AsyncDBLogger.clear_old_logs db cutoff).1,
        r ∈ db ∧ strLt r.timestamp cutoff = false) ∧
    (∀ r ∈ db, strLt r.timestamp cutoff = false →
        r ∈ (AsyncDBLogger.clear_old_logs db cutoff).1) ∧
    (AsyncDBLogger.clear_old_logs db cutoff).2 +
        (AsyncDBLogger.clear_old_logs db cutoff).1.length = db.length ∧
    (AsyncDBLogger.clear_old_logs
        (AsyncDBLogger.clear_old_logs db cutoff).1 cutoff).2 = 0 := by
  refine ⟨?_, ?_, ?_, ?_⟩
  · intro r hr
    rw [AsyncDBLogger.clear_old_logs, List.mem_filter] at hr
    exact ⟨hr.1, by simpa using hr.2⟩
  · intro r hr hts
    rw [AsyncDBLogger.clear_old_logs, List.mem_filter]
    exact ⟨hr, by simpa using hts⟩
  · rw [AsyncDBLogger.clear_old_logs]
    exact Eq.symm (List.length_eq_length_filter_add (fun r => strLt r.timestamp cutoff))
  · rw [AsyncDBLogger.clear_old_logs]
    have : (AsyncDBLogger.clear_old_logs db cutoff).1.filter
        (fun r => strLt r.timestamp cutoff) = [] := by
      rw [List.filter_eq_nil_iff]
      intro r hr
      rw [AsyncDBLogger.clear_old_logs, List.mem_filter] at hr
      simp only [Bool.not_eq_true'] at hr
      simp [hr.2]
    rw [this]
    rfl

/-- C7 witness: on a concrete two-row table with a cutoff between the two
timestamps, the count plus the kept rows account for the whole table and a
second purge deletes nothing. -/
theorem clear_old_logs_purges_exactly_witness :
    (AsyncDBLogger.clear_old_logs [rowPlain, rowGarbageExtra] "2024-01-01T00:00:01").2 +
        (AsyncDBLogger.clear_old_logs [rowPlain, rowGarbageExtra]
          "2024-01-01T00:00:01").1.length = 2 ∧
    (AsyncDBLogger.clear_old_logs
        (AsyncDBLogger.clear_old_logs [rowPlain, rowGarbageExtra] "2024-01-01T00:00:01").1
        "2024-01-01T00:00:01").2 = 0 :=
  ⟨(clear_old_logs_purges_exactly [rowPlain, rowGarbageExtra] "2024-01-01T00:00:01").2.2.1,
    (clear_old_logs_purges_exactly [rowPlain, rowGarbageExtra] "2024-01-01T00:00:01").2.2.2⟩

/-- Characterization of the drain loop from an arbitrary starting state:
the final table appends, in order, exactly the column data of the records
whose write attempt did not fail, and stderr receives one fallback line per
failed attempt. -/
theorem drainWorker_characterization (fails : Nat → Bool) :
    ∀ (recs : List LogRecord) (i : Nat) (db : List Row) (errs : List String),
      (drainWorker fails i db errs recs).1.map rowColumns =
        db.map rowColumns ++
          (((List.range' i recs.length).zip recs).filter (fun p => !fails p.1)).map
            (fun p => recordColumns p.2) ∧
      (drainWorker fails i db errs recs).2 =
        errs ++ (((List.range' i recs.length).zip recs).filter (fun p => fails p.1)).map
            (fun _ => dbErrorMessage)
  | [], i, db, errs => by simp [drainWorker, List.range']
  | lr :: rest, i, db, errs => by
    have ih := drainWorker_characterization fails rest (i + 1)
    by_cases hf : fails i
    · have h := ih db (errs ++ [dbErrorMessage])
      simp only [drainWorker, hf, if_true, List.length_cons, List.range'_succ,
        List.zip_cons_cons, List.filter_cons, Bool.not_true, hf] at h ⊢
      simp only [Bool.false_eq_true, if_false, if_true, List.map_cons] at h ⊢
      rw [h.1, h.2]
      simp
    · have h := ih (db ++ [rowOfRecord (db.length + 1) lr]) errs
      simp only [drainWorker, hf, if_false, List.length_cons, List.range'_succ,
        List.zip_cons_cons, List.filter_cons, Bool.not_false] at h ⊢
      simp only [Bool.false_eq_true, if_false, if_true, List.map_cons] at h ⊢
      rw [h.1, h.2]
      constructor
      · simp [rowColumns, rowOfRecord, recordColumns]
      · rfl

/-- C8: for every record sequence and storage-fault pattern, a write
failure is absorbed inside `_db_handler`'s `try/except` and reported on the
process error stream, and the worker continues: the sink ends up holding
exactly the non-failing records, in order, and stderr holds one fallback
message per failing write, so no failure stops the processing of later
records. -/
theorem drain_worker_write_failure_isolated (fails : Nat → Bool) (recs : List LogRecord) :
    (drainWorker fails 0 [] [] recs).1.map rowColumns =
      (((List.range recs.length).zip recs).filter (fun p => !fails p.1)).map
        (fun p => recordColumns p.2) ∧
    (drainWorker fails 0 [] [] recs).2 =
      (((List.range recs.length).zip recs).filter (fun p => fails p.1)).map
        (fun _ => dbErrorMessage) := by
  have h := drainWorker_characterization fails recs 0 [] []
  simpa [List.range_eq_range'] using h

/-- C9: a record whose `extra` is a populated mapping survives the
serialize-on-write (`str`, db_logging.py line 123) then
reconstitute-on-read (line 197) composition: appending its row to the sink
and reading back through the query path with no filters returns the record
field for field, the insertion identity excluded. -/
theorem append_then_query_roundtrip (rowid : Nat) (lr : LogRecord) (d : PyFields)
    (hextra : lr.extra = some (.vdict d)) (hne : d ≠ PyFields.nil) :
    AsyncDBLogger.get_logs [rowOfRecord rowid lr] none none none none 100 = .ok [lr] := by
  cases d with
  | nil => exact absurd rfl hne
  | cons k v rest =>
    cases lr with
    | mk ts lv ln msg ei tn pn ex =>
      have hex : ex = some (PyVal.vdict (.cons k v rest)) := hextra
      subst hex
      simp [AsyncDBLogger.get_logs, AsyncDBLogger.sqlRows, AsyncDBLogger.rowMatches,
        AsyncDBLogger.optClause, AsyncDBLogger.applyLimit, List.insertionSort,
        List.orderedInsert, AsyncDBLogger.recordsOfRows, AsyncDBLogger.recordOfRow,
        AsyncDBLogger.readExtra, rowOfRecord, serializeExtra, pyTruthy,
        pyEvalExpr_pyRepr]

/-- A record carrying a populated `extra` mapping with a nested mapping. -/
def nestedRecord : LogRecord :=
  { timestamp := "2024-01-02T00:00:00", level := "DEBUG", logger_name := "app.agent",
    message := "ctx",
    extra := some (.vdict (.cons "ctx"
      (.vdict (.cons "k" (.vstr "v") .nil)) .nil)) }

/-- C9 witness: the round trip at a concrete record whose `extra` mapping
contains a nested mapping. -/
theorem append_then_query_roundtrip_witness :
    AsyncDBLogger.get_logs [rowOfRecord 7 nestedRecord] none none none none 100 =
      .ok [nestedRecord] :=
  append_then_query_roundtrip 7 nestedRecord
    (.cons "ctx" (.vdict (.cons "k" (.vstr "v") .nil)) .nil) rfl
    (fun h => PyFields.noConfusion h)

/-- Whatever the LIMIT argument, the emitted rows are a prefix of the
sorted filtered rows. -/
theorem sqlRows_sublist (db : List Row)
    (level start_time end_time logger_name : Option String) (limit : Int) :
    (AsyncDBLogger.sqlRows db level start_time end_time logger_name limit).Sublist
      (List.insertionSort engineLe
        (db.filter (AsyncDBLogger.rowMatches level start_time end_time logger_name))) := by
  rw [AsyncDBLogger.sqlRows, AsyncDBLogger.applyLimit]
  split
  · exact List.Sublist.refl _
  · exact List.take_sublist _ _

/-- C5: on any table whose rows have pairwise distinct insertion
identities (SQLite's `INTEGER PRIMARY KEY AUTOINCREMENT` guarantees this),
and for every combination of filters and limit, the rows `get_logs` emits
are ordered by strictly descending timestamp, rows with identical
timestamps ordered by descending rowid (the reverse scan of
`idx_timestamp`). -/
theorem get_logs_rows_ordered (db : List Row)
    (level start_time end_time logger_name : Option String) (limit : Int)
    (hids : (db.map Row.rowid).Nodup) :
    (AsyncDBLogger.sqlRows db level start_time end_time logger_name limit).Pairwise
      (fun a b => strLt b.timestamp a.timestamp = true ∨
        (a.timestamp = b.timestamp ∧ b.rowid < a.rowid)) := by
  have hdb : db.Pairwise (fun a b => a.rowid ≠ b.rowid) := List.pairwise_map.mp hids
  have hflt : (db.filter
      (AsyncDBLogger.rowMatches level start_time end_time logger_name)).Pairwise
      (fun a b => a.rowid ≠ b.rowid) :=
    hdb.sublist (List.filter_sublist db)
  have hsorted := List.sorted_insertionSort engineLe
    (db.filter (AsyncDBLogger.rowMatches level start_time end_time logger_name))
  have hperm := List.perm_insertionSort engineLe
    (db.filter (AsyncDBLogger.rowMatches level start_time end_time logger_name))
  have hne : (List.insertionSort engineLe
      (db.filter (AsyncDBLogger.rowMatches level start_time end_time logger_name))).Pairwise
      (fun a b => a.rowid ≠ b.rowid) :=
    (hperm.pairwise_iff (fun hab => Ne.symm hab)).mpr hflt
  have hsorted2 : (List.insertionSort engineLe
      (db.filter (AsyncDBLogger.rowMatches level start_time end_time logger_name))).Pairwise
      engineLe := hsorted
  have hcomb := (hsorted2.and hne).sublist
    (sqlRows_sublist db level start_time end_time logger_name limit)
  refine hcomb.imp ?_
  intro a b hab
  obtain ⟨hle, hner⟩ := hab
  rw [engineLe, Bool.or_eq_true, Bool.and_eq_true, beq_iff_eq, decide_eq_true_eq] at hle
  rcases hle with hlt | ⟨heq, hler⟩
  · exact Or.inl hlt
  · exact Or.inr ⟨heq, Nat.lt_of_le_of_ne hler (Ne.symm hner)⟩

/-- Two rows sharing one timestamp, distinct identities. -/
def rowTieOld : Row :=
  { rowid := 1, timestamp := "2024-01-01T00:00:00", level := "INFO",
    logger_name := "app", message := "first" }

/-- Second row of the tie. -/
def rowTieNew : Row :=
  { rowid := 2, timestamp := "2024-01-01T00:00:00", level := "INFO",
    logger_name := "app", message := "second" }

/-- C5 witness: the ordering guarantee instantiated on a concrete table
with a timestamp tie. -/
theorem get_logs_rows_ordered_witness :
    (AsyncDBLogger.sqlRows [rowTieOld, rowTieNew] none none none none 100).Pairwise
      (fun a b => strLt b.timestamp a.timestamp = true ∨
        (a.timestamp = b.timestamp ∧ b.rowid < a.rowid)) :=
  get_logs_rows_ordered [rowTieOld, rowTieNew] none none none none 100 (by decide)

/-- A truthy optional filter adds its clause, so the WHERE clause holds iff
every supplied non-empty filter value satisfies it. -/
theorem optClause_eq_true_iff (f : Option String) (p : String → Bool) :
    AsyncDBLogger.optClause f p = true ↔ (∀ s, f = some s → s ≠ "" → p s = true) := by
  cases f with
  | none => simp [AsyncDBLogger.optClause]
  | some s =>
    by_cases hs : s = ""
    · subst hs; simp [AsyncDBLogger.optClause]
    · simp [AsyncDBLogger.optClause, hs]

/-- The WHERE clause of `get_logs` is the conjunction of the four optional
clauses, each skipped for an absent or empty filter. -/
theorem rowMatches_eq_true_iff (level start_time end_time logger_name : Option String)
    (r : Row) :
    AsyncDBLogger.rowMatches level start_time end_time logger_name r = true ↔
      ((∀ s, level = some s → s ≠ "" → r.level = s) ∧
       (∀ s, start_time = some s → s ≠ "" → strLe s r.timestamp = true) ∧
       (∀ s, end_time = some s → s ≠ "" → strLe r.timestamp s = true) ∧
       (∀ s, logger_name = some s → s ≠ "" → r.logger_name = s)) := by
  simp only [AsyncDBLogger.rowMatches, Bool.and_eq_true, optClause_eq_true_iff,
    beq_iff_eq]
  tauto

/-- A natural LIMIT argument truncates to that many rows. -/
theorem applyLimit_natCast (limit : Nat) (l : List Row) :
    AsyncDBLogger.applyLimit (limit : Int) l = l.take limit := by
  rw [AsyncDBLogger.applyLimit, if_neg (Int.not_lt.mpr (Int.natCast_nonneg limit)),
    Int.toNat_natCast]

/-- C6 counterexample: the claim says a supplied `level` filter matches
exactly, but `if level:` (db_logging.py line 165) skips the clause for the
empty string, so with `level = some ""` a row whose level is `"INFO"` — not
equal to the supplied value — is still returned. -/
theorem get_logs_empty_level_filter_ignored :
    rowPlain ∈ AsyncDBLogger.sqlRows [rowPlain] (some "") none none none 100 ∧
    rowPlain.level ≠ "" :=
  ⟨by decide, by decide⟩

/-- C6 amended: `get_logs` composes the supplied filters by logical AND
with truthiness semantics — a filter that is absent or the empty string
adds no clause, a non-empty `level`/`logger_name` matches exactly and
non-empty bounds restrict `timestamp` to the inclusive range — and, for a
non-negative limit (default 100), at most `limit` rows are returned: every
returned row is a table row satisfying all supplied non-empty filters, and
when fewer than `limit` rows come back, every matching table row is among
them. -/
theorem get_logs_filter_semantics (db : List Row)
    (level start_time end_time logger_name : Option String) (limit : Nat) :
    (AsyncDBLogger.sqlRows db level start_time end_time logger_name
        ((limit : Nat) : Int)).length ≤ limit ∧
    (∀ r ∈ AsyncDBLogger.sqlRows db level start_time end_time logger_name
        ((limit : Nat) : Int),
      r ∈ db ∧
      (∀ s, level = some s → s ≠ "" → r.level = s) ∧
      (∀ s, start_time = some s → s ≠ "" → strLe s r.timestamp = true) ∧
      (∀ s, end_time = some s → s ≠ "" → strLe r.timestamp s = true) ∧
      (∀ s, logger_name = some s → s ≠ "" → r.logger_name = s)) ∧
    ((AsyncDBLogger.sqlRows db level start_time end_time logger_name
        ((limit : Nat) : Int)).length < limit →
      ∀ r ∈ db,
        (∀ s, level = some s → s ≠ "" → r.level = s) →
        (∀ s, start_time = some s → s ≠ "" → strLe s r.timestamp = true) →
        (∀ s, end_time = some s → s ≠ "" → strLe r.timestamp s = true) →
        (∀ s, logger_name = some s → s ≠ "" → r.logger_name = s) →
        r ∈ AsyncDBLogger.sqlRows db level start_time end_time logger_name
          ((limit : Nat) : Int)) := by
  have hrows : AsyncDBLogger.sqlRows db level start_time end_time logger_name
      ((limit : Nat) : Int) =
      (List.insertionSort engineLe
        (db.filter (AsyncDBLogger.rowMatches level start_time end_time logger_name))).take
        limit := by
    rw [AsyncDBLogger.sqlRows, applyLimit_natCast]
  have hperm := List.perm_insertionSort engineLe
    (db.filter (AsyncDBLogger.rowMatches level start_time end_time logger_name))
  refine ⟨?_, ?_, ?_⟩
  · rw [hrows]
    exact List.length_take_le limit _
  · intro r hr
    rw [hrows] at hr
    have hr2 : r ∈ List.insertionSort engineLe
        (db.filter (AsyncDBLogger.rowMatches level start_time end_time logger_name)) :=
      (List.take_sublist _ _).mem hr
    have hr3 := hperm.mem_iff.mp hr2
    rw [List.mem_filter] at hr3
    obtain ⟨hmem, hmatch⟩ := hr3
    obtain ⟨h1, h2, h3, h4⟩ := (rowMatches_eq_true_iff level start_time end_time
      logger_name r).mp hmatch
    exact ⟨hmem, h1, h2, h3, h4⟩
  · intro hlt r hmem h1 h2 h3 h4
    have hfull : (List.insertionSort engineLe
        (db.filter (AsyncDBLogger.rowMatches level start_time end_time logger_name))).take
        limit =
        List.insertionSort engineLe
          (db.filter (AsyncDBLogger.rowMatches level start_time end_time logger_name)) := by
      apply List.take_of_length_le
      rw [hrows] at hlt
      have := List.length_take limit (List.insertionSort engineLe
        (db.filter (AsyncDBLogger.rowMatches level start_time end_time logger_name)))
      rw [this] at hlt
      omega
    rw [hrows, hfull, hperm.mem_iff, List.mem_filter]
    exact ⟨hmem, (rowMatches_eq_true_iff level start_time end_time logger_name r).mpr
      ⟨h1, h2, h3, h4⟩⟩

/-- C6 witness: on a concrete two-row table with a supplied non-empty
level filter and fewer matches than the limit, the matching row is
returned. -/
theorem get_logs_filter_semantics_witness :
    rowGarbageExtra ∈ AsyncDBLogger.sqlRows [rowPlain, rowGarbageExtra]
      (some "ERROR") none none none ((100 : Nat) : Int) := by
  have h := get_logs_filter_semantics [rowPlain, rowGarbageExtra]
    (some "ERROR") none none none 100
  refine h.2.2 (by decide) rowGarbageExtra (by decide) ?_ ?_ ?_ ?_
  · intro s hs _
    cases hs
    rfl
  · intro s hs
    exact Option.noConfusion hs
  · intro s hs
    exact Option.noConfusion hs
  · intro s hs
    exact Option.noConfusion hs

end SentimentAgent
